import Mathlib

/-!
Verification of the calculation engine of the Rlucas_Midterm calculator.

The engine (`app/calculator.py`, `app/calculation.py`, `app/calculator_memento.py`,
`app/operations.py`) is embedded shallowly: Python `Decimal` values are modelled
by `ℚ`, raw user inputs by `RawInput`, exceptions by `Except` over `CalcError`,
and the mutable `Calculator` object by explicit state passing over
`CalculatorState`.  Timestamps are modelled by `Nat` (the ISO-8601 string layer
round-trips exactly, so only the value matters).
-/

namespace Midterm

/-- Modelled from the spec: `app/calculation.py`'s `Calculation` dataclass —
one recorded arithmetic event: operation name, the two decimal operands, the
decimal result, and a timestamp. -/
structure Calculation where
  operation : String
  operand1 : ℚ
  operand2 : ℚ
  result : ℚ
  timestamp : Nat
  deriving DecidableEq

/-- Modelled from the spec: `app/calculator_memento.py`'s `CalculatorMemento` —
an immutable snapshot of the full history list plus a timestamp. -/
structure CalculatorMemento where
  history : List Calculation
  timestamp : Nat
  deriving DecidableEq

/-- Modelled from the spec: the two failure kinds a strategy can signal —
a domain-validation failure (Python `ValidationError`) or any other,
unexpected, exception. -/
inductive StratError where
  | validation (msg : String)
  | unexpected (msg : String)
  deriving DecidableEq

/-- Modelled from the spec: `app/exceptions.py`'s error taxonomy as surfaced by
the engine: `ValidationError` for bad input shape or domain violations,
`OperationError` for orchestration-boundary failures. -/
inductive CalcError where
  | validationError (msg : String)
  | operationError (msg : String)
  deriving DecidableEq

/-- Modelled from the spec: an `app/operations.py` operation strategy —
polymorphic over `validate(a, b)` and `execute(a, b) -> Decimal`; either call
may raise a validation failure or an unexpected exception. -/
structure OperationStrategy where
  name : String
  validate : ℚ → ℚ → Except StratError Unit
  execute : ℚ → ℚ → Except StratError ℚ

/-- Modelled from the spec: the slice of `app/calculator_config.py`'s
`CalculatorConfig` the engine consumes for the claims at hand:
`max_history_size` (a positive integer per §6). -/
structure CalculatorConfig where
  max_history_size : Nat
  deriving DecidableEq

/-- Modelled from the spec: a raw operand as handed to `perform_operation` —
either text that parses to a decimal number or text that does not. -/
inductive RawInput where
  | num (q : ℚ)
  | invalid (s : String)
  deriving DecidableEq

/-- Modelled from the spec: the `Calculator` object's mutable state: bounded
history, the undo and redo stacks of mementos (top of stack = head of list),
the registered observers, and the currently selected strategy. -/
structure CalculatorState where
  config : CalculatorConfig
  history : List Calculation
  undo_stack : List CalculatorMemento
  redo_stack : List CalculatorMemento
  observers : List String
  operation_strategy : Option OperationStrategy

/-- Modelled from the spec: a fresh engine before any history is loaded:
empty history, empty stacks, no observers, no strategy selected. -/
def freshState (config : CalculatorConfig) : CalculatorState :=
  { config := config, history := [], undo_stack := [], redo_stack := [],
    observers := [], operation_strategy := none }

/-- Modelled from the spec: `app/input_validators.py`'s
`InputValidator.validate_number` — parses a raw input into the decimal type;
a non-numeric input fails with `ValidationError`. -/
def validate_number (r : RawInput) : Except CalcError ℚ :=
  match r with
  | .num q => .ok q
  | .invalid s => .error (.validationError ("Invalid number format: " ++ s))

/-- Modelled from the spec: `Calculator.set_operation` — replaces the selected
strategy; no validation at set time. -/
def set_operation (s : CalculatorState) (strat : OperationStrategy) : CalculatorState :=
  { s with operation_strategy := some strat }

/-- Evict the oldest history entry (`history.pop(0)`) when the length exceeds
the capacity; at most one entry is removed per computation. -/
def evict (l : List Calculation) (cap : Nat) : List Calculation :=
  if cap < l.length then l.tail else l

/-- Modelled from the spec: `Calculator.perform_operation(a_raw, b_raw)`.
Fails with `OperationError "No operation set"` when no strategy is selected;
parses both raw operands (`ValidationError` on a non-numeric input); delegates
to the strategy's `validate` then `execute`, letting validation failures
through unchanged and wrapping any unexpected exception as
`OperationError ("Operation failed: " ++ msg)`.  On success it snapshots the
pre-mutation history onto the undo stack (the discipline pinned by
`test_undo`/`test_redo` and §8), clears the redo stack, appends the new
`Calculation`, evicts the oldest entry if over capacity, and returns the
result.  The second component is the engine state after the call: on every
failure path the state is returned unchanged. -/
def perform_operation (s : CalculatorState) (r1 r2 : RawInput) (ts : Nat) :
    Except CalcError ℚ × CalculatorState :=
  match s.operation_strategy with
  | none => (.error (.operationError "No operation set"), s)
  | some strat =>
    match validate_number r1 with
    | .error e => (.error e, s)
    | .ok a =>
      match validate_number r2 with
      | .error e => (.error e, s)
      | .ok b =>
        match strat.validate a b with
        | .error (.validation m) => (.error (.validationError m), s)
        | .error (.unexpected m) =>
            (.error (.operationError ("Operation failed: " ++ m)), s)
        | .ok _ =>
          match strat.execute a b with
          | .error (.validation m) => (.error (.validationError m), s)
          | .error (.unexpected m) =>
              (.error (.operationError ("Operation failed: " ++ m)), s)
          | .ok v =>
            let c : Calculation :=
              { operation := strat.name, operand1 := a, operand2 := b,
                result := v, timestamp := ts }
            (.ok v,
             { s with
                history := evict (s.history ++ [c]) s.config.max_history_size,
                undo_stack := ⟨s.history, ts⟩ :: s.undo_stack,
                redo_stack := [] })

/-- Modelled from the spec: `Calculator.undo` — with an empty undo stack it
returns `False` and changes nothing; otherwise it pops the top memento,
pushes a snapshot of the current history onto the redo stack, and restores
the popped snapshot (the discipline pinned by `test_undo`). -/
def undo (s : CalculatorState) (ts : Nat) : Bool × CalculatorState :=
  match s.undo_stack with
  | [] => (false, s)
  | m :: rest =>
    (true, { s with history := m.history, undo_stack := rest,
                    redo_stack := ⟨s.history, ts⟩ :: s.redo_stack })

/-- Modelled from the spec: `Calculator.redo` — mirror of `undo`: with an
empty redo stack it returns `False` and changes nothing; otherwise it pops the
top redo memento, pushes a snapshot of the current history onto the undo
stack, and restores the popped snapshot. -/
def redo (s : CalculatorState) (ts : Nat) : Bool × CalculatorState :=
  match s.redo_stack with
  | [] => (false, s)
  | m :: rest =>
    (true, { s with history := m.history, redo_stack := rest,
                    undo_stack := ⟨s.history, ts⟩ :: s.undo_stack })

/-- Modelled from the spec: `Calculator.clear_history` — empties history and
both stacks unconditionally. -/
def clear_history (s : CalculatorState) : CalculatorState :=
  { s with history := [], undo_stack := [], redo_stack := [] }

/-- Modelled from the spec: one row of the tabular history file
(columns `operation, operand1, operand2, result, timestamp`); numeric fields
are carried as raw wire values so that an unparseable field can occur, and the
timestamp as its decoded value (ISO-8601 strings round-trip exactly). -/
structure HistoryRow where
  operation : String
  operand1 : RawInput
  operand2 : RawInput
  result : RawInput
  timestamp : Nat
  deriving DecidableEq

/-- Modelled from the spec: `Calculation.to_dict` — serializes one calculation
into one row, numeric fields as their exact decimal representation. -/
def Calculation.to_dict (c : Calculation) : HistoryRow :=
  { operation := c.operation, operand1 := .num c.operand1,
    operand2 := .num c.operand2, result := .num c.result,
    timestamp := c.timestamp }

/-- Modelled from the spec: `Calculation.from_dict` — parses one row back into
a `Calculation`; a row with an unparseable numeric field fails with
`OperationError`. -/
def Calculation.from_dict (r : HistoryRow) : Except CalcError Calculation :=
  match r.operand1, r.operand2, r.result with
  | .num a, .num b, .num v =>
      .ok { operation := r.operation, operand1 := a, operand2 := b,
            result := v, timestamp := r.timestamp }
  | _, _, _ => .error (.operationError "Invalid calculation data")

/-- Modelled from the spec: the persisted history file — `none` when the file
does not exist, otherwise its ordered data rows. -/
abbrev HistoryFile : Type := Option (List HistoryRow)

/-- Parse the data rows of a history file in order, failing on the first bad
row. -/
def parse_rows : List HistoryRow → Except CalcError (List Calculation)
  | [] => .ok []
  | r :: rs =>
    match Calculation.from_dict r with
    | .error e => .error e
    | .ok c =>
      match parse_rows rs with
      | .error e => .error e
      | .ok cs => .ok (c :: cs)

/-- Modelled from the spec: `Calculator.save_history` — serializes the ordered
history into the tabular file, one row per calculation. -/
def save_history (s : CalculatorState) : List HistoryRow :=
  s.history.map Calculation.to_dict

/-- Modelled from the spec: `Calculator.load_history` — a missing file leaves
history as it is (empty on a fresh engine, not an error); a file with zero
data rows leaves history empty; otherwise every row is parsed and the
in-memory history replaced wholesale, the undo/redo stacks untouched; a bad
row fails with `OperationError` describing the load failure. -/
def load_history (s : CalculatorState) (file : HistoryFile) :
    Except CalcError CalculatorState :=
  match file with
  | none => .ok s
  | some rows =>
    if rows.isEmpty then .ok { s with history := [] }
    else
      match parse_rows rows with
      | .ok cs => .ok { s with history := cs }
      | .error (.validationError m) =>
          .error (.operationError ("Failed to load history: " ++ m))
      | .error (.operationError m) =>
          .error (.operationError ("Failed to load history: " ++ m))

/-- Modelled from the spec: `Calculator.__init__` — builds the fresh state and
immediately attempts to load any persisted history; a failure during this
load is swallowed and the engine starts with empty history. -/
def calculator_init (config : CalculatorConfig) (file : HistoryFile) :
    CalculatorState :=
  match load_history (freshState config) file with
  | .ok s => s
  | .error _ => freshState config

/-- Modelled from the spec: `CalculatorMemento.to_dict` — the serialized form
of a memento: its history as rows plus its timestamp. -/
structure MementoDict where
  history : List HistoryRow
  timestamp : Nat
  deriving DecidableEq

/-- Modelled from the spec: `CalculatorMemento.to_dict`. -/
def CalculatorMemento.to_dict (m : CalculatorMemento) : MementoDict :=
  { history := m.history.map Calculation.to_dict, timestamp := m.timestamp }

/-- Modelled from the spec: `CalculatorMemento.from_dict` — rebuilds every
calculation of the serialized history and the timestamp. -/
def CalculatorMemento.from_dict (d : MementoDict) :
    Except CalcError CalculatorMemento :=
  match parse_rows d.history with
  | .error e => .error e
  | .ok cs => .ok { history := cs, timestamp := d.timestamp }

/-- Modelled from the spec: the `'add'` strategy of `OperationFactory` —
operation name `"Addition"`, no domain constraint, exact decimal addition. -/
def add_op : OperationStrategy :=
  { name := "Addition", validate := fun _ _ => .ok (),
    execute := fun a b => .ok (a + b) }

/-- Modelled from the spec: a strategy whose `execute` raises an unexpected
(non-validation) exception, as the test suite builds by mocking `execute`. -/
def broken_add : OperationStrategy :=
  { name := "Addition", validate := fun _ _ => .ok (),
    execute := fun _ _ => .error (.unexpected "Unexpected error") }

/-- The last `n` elements of a list, in order — the shape a bounded FIFO
history takes after repeated append-and-evict. -/
def take_last {α : Type*} (n : Nat) (l : List α) : List α :=
  l.drop (l.length - n)

/-- Run `perform_operation` over a list of numeric operand pairs in order
(all with timestamp `ts`), stopping with `none` if any computation fails. -/
def perform_run (s : CalculatorState) (ts : Nat) :
    List (ℚ × ℚ) → Option CalculatorState
  | [] => some s
  | p :: rest =>
    match perform_operation s (.num p.1) (.num p.2) ts with
    | (.ok _, s') => perform_run s' ts rest
    | (.error _, _) => none

/-- The calculations a run of operand pairs records, for a strategy with
operation name `name` computing `f`. -/
def run_calcs (name : String) (f : ℚ → ℚ → ℚ) (ts : Nat)
    (inputs : List (ℚ × ℚ)) : List Calculation :=
  inputs.map (fun p => ⟨name, p.1, p.2, f p.1 p.2, ts⟩)

/-- A fresh engine (capacity 100) with the addition strategy selected. -/
def c3_state : CalculatorState := set_operation (freshState ⟨100⟩) add_op

/-- A history file whose single row has an unparseable `operand1` field. -/
def bad_file : HistoryFile :=
  some [{ operation := "Addition", operand1 := .invalid "bad",
          operand2 := .num 3, result := .num 5, timestamp := 0 }]

/-! ## Helper lemmas -/

theorem perform_operation_ok (s : CalculatorState) (S : OperationStrategy)
    (a b v : ℚ) (ts : Nat)
    (hS : s.operation_strategy = some S)
    (hval : S.validate a b = .ok ())
    (hex : S.execute a b = .ok v) :
    perform_operation s (.num a) (.num b) ts =
      (.ok v,
       { s with
          history := evict (s.history ++ [⟨S.name, a, b, v, ts⟩])
            s.config.max_history_size,
          undo_stack := ⟨s.history, ts⟩ :: s.undo_stack,
          redo_stack := [] }) := by
  simp [perform_operation, hS, validate_number, hval, hex]

theorem getLast?_evict (l : List Calculation) (c : Calculation) (cap : Nat)
    (h : 0 < cap) : (evict (l ++ [c]) cap).getLast? = some c := by
  unfold evict
  split
  · next hlt =>
    cases l with
    | nil => simp at hlt; omega
    | cons x l' => simp [List.getLast?_concat]
  · simp [List.getLast?_concat]

theorem take_last_of_le {α : Type*} {n : Nat} {l : List α}
    (h : l.length ≤ n) : take_last n l = l := by
  unfold take_last
  rw [Nat.sub_eq_zero_of_le h, List.drop_zero]

theorem length_take_last {α : Type*} (n : Nat) (l : List α) :
    (take_last n l).length ≤ n := by
  simp only [take_last, List.length_drop]
  omega

theorem drop_append_of_le {α : Type*} :
    ∀ (n : Nat) (l m : List α), n ≤ l.length →
      (l ++ m).drop n = l.drop n ++ m
  | 0, _, _, _ => by simp
  | n + 1, [], _, h => by simp at h
  | n + 1, x :: l, m, h => by
    simp only [List.cons_append, List.drop_succ_cons]
    exact drop_append_of_le n l m (by simpa using h)

theorem take_last_append {α : Type*} (n : Nat) (l m : List α) :
    take_last n (take_last n l ++ m) = take_last n (l ++ m) := by
  by_cases hn : l.length ≤ n
  · rw [take_last_of_le hn]
  · have hj : l.length - n ≤ l.length := Nat.sub_le _ _
    unfold take_last
    simp only [← drop_append_of_le (l.length - n) l m hj]
    rw [List.length_drop, List.drop_drop]
    congr 1
    simp only [List.length_append]
    omega

theorem evict_eq_take_last (l : List Calculation) (c : Calculation)
    (cap : Nat) (h : l.length ≤ cap) :
    evict (l ++ [c]) cap = take_last cap (l ++ [c]) := by
  unfold evict take_last
  rcases Nat.lt_or_ge l.length cap with hlt | hge
  · rw [if_neg (by simp only [List.length_append, List.length_cons,
      List.length_nil]; omega)]
    rw [Nat.sub_eq_zero_of_le (by simp only [List.length_append,
      List.length_cons, List.length_nil]; omega), List.drop_zero]
  · have hcap : l.length = cap := Nat.le_antisymm h hge
    rw [if_pos (by simp only [List.length_append, List.length_cons,
      List.length_nil]; omega)]
    rw [show (l ++ [c]).length - cap = 1 by
      simp only [List.length_append, List.length_cons, List.length_nil]
      omega]
    rw [List.drop_one]

theorem perform_run_history (S : OperationStrategy) (f : ℚ → ℚ → ℚ) (ts : Nat)
    (hval : ∀ a b, S.validate a b = .ok ())
    (hex : ∀ a b, S.execute a b = .ok (f a b))
    (inputs : List (ℚ × ℚ)) :
    ∀ (s : CalculatorState),
      s.operation_strategy = some S →
      s.history.length ≤ s.config.max_history_size →
      ∃ s', perform_run s ts inputs = some s' ∧
        s'.config = s.config ∧
        s'.history = take_last s.config.max_history_size
          (s.history ++ run_calcs S.name f ts inputs) := by
  induction inputs with
  | nil =>
    intro s hS hlen
    exact ⟨s, rfl, rfl, by simp [run_calcs, take_last_of_le hlen]⟩
  | cons p rest ih =>
    intro s hS hlen
    obtain ⟨a, b⟩ := p
    have hstep := perform_operation_ok s S a b (f a b) ts hS (hval a b)
      (hex a b)
    set s₁ : CalculatorState :=
      { s with
         history := evict (s.history ++ [⟨S.name, a, b, f a b, ts⟩])
           s.config.max_history_size,
         undo_stack := ⟨s.history, ts⟩ :: s.undo_stack,
         redo_stack := [] } with hs₁
    have hrun : perform_run s ts ((a, b) :: rest) = perform_run s₁ ts rest := by
      simp [perform_run, hstep]
    have hhist₁ : s₁.history = take_last s.config.max_history_size
        (s.history ++ [⟨S.name, a, b, f a b, ts⟩]) :=
      evict_eq_take_last s.history _ _ hlen
    have hlen₁ : s₁.history.length ≤ s₁.config.max_history_size := by
      rw [show s₁.config = s.config from rfl, hhist₁]
      exact length_take_last _ _
    obtain ⟨s', hrun', hcfg, hhist'⟩ := ih s₁ hS hlen₁
    refine ⟨s', by rw [hrun]; exact hrun',
      by rw [hcfg, show s₁.config = s.config from rfl], ?_⟩
    rw [hhist', show s₁.config = s.config from rfl, hhist₁, take_last_append]
    simp [run_calcs]

theorem parse_rows_map_to_dict (l : List Calculation) :
    parse_rows (l.map Calculation.to_dict) = .ok l := by
  induction l with
  | nil => rfl
  | cons c cs ih =>
    simp [parse_rows, Calculation.from_dict, Calculation.to_dict, ih]

/-! ## Claims -/

/-- C1: for every valid operand pair `(a, b)` and every selected strategy `S`
whose validation and execution succeed, `perform_operation` returns exactly
the value `S.execute(a, b)` produced, and the last history entry records the
strategy's operation name, both operands and that result. -/
theorem C1_perform_operation_matches_strategy (s : CalculatorState)
    (S : OperationStrategy) (a b v : ℚ) (ts : Nat)
    (hS : s.operation_strategy = some S)
    (hval : S.validate a b = .ok ())
    (hex : S.execute a b = .ok v)
    (hcap : 0 < s.config.max_history_size) :
    (perform_operation s (.num a) (.num b) ts).1 = .ok v ∧
    (perform_operation s (.num a) (.num b) ts).2.history.getLast? =
      some ⟨S.name, a, b, v, ts⟩ := by
  rw [perform_operation_ok s S a b v ts hS hval hex]
  exact ⟨rfl, getLast?_evict s.history _ _ hcap⟩

/-- C1 witness: with the addition strategy selected on a fresh engine,
`perform_operation 2 3` returns the decimal 5 and records
`Addition, 2, 3, 5` as the newest history entry. -/
theorem C1_witness :
    (perform_operation (set_operation (freshState ⟨100⟩) add_op)
        (.num 2) (.num 3) 0).1 = .ok 5 ∧
    (perform_operation (set_operation (freshState ⟨100⟩) add_op)
        (.num 2) (.num 3) 0).2.history.getLast? =
      some ⟨"Addition", 2, 3, 5, 0⟩ :=
  C1_perform_operation_matches_strategy _ add_op 2 3 5 0 rfl rfl
    (by norm_num [add_op]) (by decide)

/-- C5: with no strategy selected, `perform_operation` fails with
`OperationError` whose message is exactly `"No operation set"` (hence contains
it), for every operand pair, and the state is unchanged. -/
theorem C5_no_operation_set (s : CalculatorState) (r1 r2 : RawInput) (ts : Nat)
    (h : s.operation_strategy = none) :
    perform_operation s r1 r2 ts =
      (.error (.operationError "No operation set"), s) := by
  simp [perform_operation, h]

/-- C5 witness: `perform_operation 2 3` on a fresh engine (no strategy
selected) fails with `OperationError "No operation set"`. -/
theorem C5_witness :
    (freshState ⟨100⟩).operation_strategy = none ∧
    perform_operation (freshState ⟨100⟩) (.num 2) (.num 3) 0 =
      (.error (.operationError "No operation set"), freshState ⟨100⟩) :=
  ⟨rfl, C5_no_operation_set (freshState ⟨100⟩) (.num 2) (.num 3) 0 rfl⟩

/-- C6: with a strategy selected, if either raw operand fails to parse as a
decimal number, `perform_operation` fails with `ValidationError` and the
engine state is returned completely unchanged (no mutation of history, the
stacks, or anything else). -/
theorem C6_validation_error_no_mutation (s : CalculatorState)
    (S : OperationStrategy) (r1 r2 : RawInput) (ts : Nat)
    (hS : s.operation_strategy = some S)
    (h : (∃ m, validate_number r1 = .error (.validationError m)) ∨
         (∃ m, validate_number r2 = .error (.validationError m))) :
    ∃ m, perform_operation s r1 r2 ts = (.error (.validationError m), s) := by
  cases r1 with
  | invalid str =>
    refine ⟨"Invalid number format: " ++ str, ?_⟩
    simp [perform_operation, hS, validate_number]
  | num q =>
    cases r2 with
    | invalid str =>
      refine ⟨"Invalid number format: " ++ str, ?_⟩
      simp [perform_operation, hS, validate_number]
    | num q2 =>
      rcases h with ⟨m, hm⟩ | ⟨m, hm⟩ <;> simp [validate_number] at hm

/-- C6 witness: `perform_operation "invalid" 3` with the addition strategy
selected fails with a `ValidationError` and leaves the engine unchanged. -/
theorem C6_witness :
    (∃ m, validate_number (.invalid "invalid") =
        .error (.validationError m)) ∧
    ∃ m, perform_operation (set_operation (freshState ⟨100⟩) add_op)
        (.invalid "invalid") (.num 3) 0 =
      (.error (.validationError m),
       set_operation (freshState ⟨100⟩) add_op) :=
  ⟨⟨"Invalid number format: invalid", rfl⟩,
   C6_validation_error_no_mutation _ add_op (.invalid "invalid") (.num 3) 0
     rfl (.inl ⟨"Invalid number format: invalid", rfl⟩)⟩

/-- C7: any unexpected (non-validation) exception raised by the selected
strategy's `execute` is caught and re-raised as `OperationError` with message
`"Operation failed: <original message>"`, the state unchanged. -/
theorem C7_unexpected_wrapped (s : CalculatorState) (S : OperationStrategy)
    (a b : ℚ) (m : String) (ts : Nat)
    (hS : s.operation_strategy = some S)
    (hval : S.validate a b = .ok ())
    (hex : S.execute a b = .error (.unexpected m)) :
    perform_operation s (.num a) (.num b) ts =
      (.error (.operationError ("Operation failed: " ++ m)), s) := by
  simp [perform_operation, hS, validate_number, hval, hex]

/-- C7 witness: a strategy whose `execute` raises `"Unexpected error"` makes
`perform_operation 5 3` fail with
`OperationError "Operation failed: Unexpected error"`. -/
theorem C7_witness :
    perform_operation (set_operation (freshState ⟨100⟩) broken_add)
        (.num 5) (.num 3) 0 =
      (.error (.operationError ("Operation failed: " ++ "Unexpected error")),
       set_operation (freshState ⟨100⟩) broken_add) :=
  C7_unexpected_wrapped _ broken_add 5 3 "Unexpected error" 0 rfl rfl rfl

/-- C2: starting from any state within capacity, a run of successful
computations keeps `len(history) ≤ max_history_size` and evicts oldest-first:
the final history is exactly the last `max_history_size` entries, in
chronological order, of the old history followed by the new calculations. -/
theorem C2_history_bounded_fifo (s : CalculatorState) (S : OperationStrategy)
    (f : ℚ → ℚ → ℚ) (ts : Nat) (inputs : List (ℚ × ℚ))
    (hS : s.operation_strategy = some S)
    (hval : ∀ a b, S.validate a b = .ok ())
    (hex : ∀ a b, S.execute a b = .ok (f a b))
    (hlen : s.history.length ≤ s.config.max_history_size) :
    ∃ s', perform_run s ts inputs = some s' ∧
      s'.history = take_last s.config.max_history_size
        (s.history ++ run_calcs S.name f ts inputs) ∧
      s'.history.length ≤ s.config.max_history_size := by
  obtain ⟨s', h1, hcfg, h2⟩ :=
    perform_run_history S f ts hval hex inputs s hS hlen
  exact ⟨s', h1, h2, by rw [h2]; exact length_take_last _ _⟩

/-- C2 witness: with `max_history_size = 2` and the addition strategy, the run
`(1,1), (2,2), (3,3)` from an empty history leaves exactly the two most
recent calculations `[2+2=4, 3+3=6]`, in order. -/
theorem C2_witness :
    (∃ s', perform_run (set_operation (freshState ⟨2⟩) add_op) 0
        [(1, 1), (2, 2), (3, 3)] = some s' ∧
      s'.history = take_last 2 ([] ++ run_calcs "Addition" (fun a b => a + b) 0
        [(1, 1), (2, 2), (3, 3)]) ∧
      s'.history.length ≤ 2) ∧
    take_last 2 ([] ++ run_calcs "Addition" (fun a b => a + b) 0
        [(1, 1), (2, 2), (3, 3)]) =
      [⟨"Addition", 2, 2, 4, 0⟩, ⟨"Addition", 3, 3, 6, 0⟩] :=
  ⟨C2_history_bounded_fifo _ add_op (fun a b => a + b) 0
      [(1, 1), (2, 2), (3, 3)] rfl (fun _ _ => rfl) (fun _ _ => rfl)
      (by decide),
   by norm_num [take_last, run_calcs]⟩

/-- C3: after one successful computation, `undo` succeeds and restores the
history to the pre-computation snapshot, and `redo` right after that `undo`
succeeds and restores the post-computation history; when the computation was
the first (empty history, positive capacity) that history is exactly the one
original calculation. -/
theorem C3_undo_redo_roundtrip (s : CalculatorState) (S : OperationStrategy)
    (a b v : ℚ) (ts ts1 ts2 : Nat)
    (hS : s.operation_strategy = some S)
    (hval : S.validate a b = .ok ())
    (hex : S.execute a b = .ok v) :
    (undo (perform_operation s (.num a) (.num b) ts).2 ts1).1 = true ∧
    (undo (perform_operation s (.num a) (.num b) ts).2 ts1).2.history =
      s.history ∧
    (redo (undo (perform_operation s (.num a) (.num b) ts).2 ts1).2 ts2).1 =
      true ∧
    (redo (undo (perform_operation s (.num a) (.num b) ts).2 ts1).2
        ts2).2.history =
      (perform_operation s (.num a) (.num b) ts).2.history ∧
    (s.history = [] → 0 < s.config.max_history_size →
      (perform_operation s (.num a) (.num b) ts).2.history =
        [⟨S.name, a, b, v, ts⟩]) := by
  rw [perform_operation_ok s S a b v ts hS hval hex]
  refine ⟨rfl, rfl, rfl, rfl, ?_⟩
  intro h hcap
  rw [h]
  unfold evict
  simp only [List.nil_append, List.length_cons, List.length_nil]
  rw [if_neg (by omega)]

/-- C3 witness: on a fresh engine with the addition strategy,
`perform_operation 2 3` then `undo` empties the history, and `redo` right
after brings back exactly the original `Addition, 2, 3, 5` calculation. -/
theorem C3_witness :
    (undo (perform_operation c3_state (.num 2) (.num 3) 0).2 1).1 = true ∧
    (undo (perform_operation c3_state (.num 2) (.num 3) 0).2 1).2.history =
      c3_state.history ∧
    (redo (undo (perform_operation c3_state (.num 2) (.num 3) 0).2 1).2 2).1 =
      true ∧
    (redo (undo (perform_operation c3_state (.num 2) (.num 3) 0).2 1).2
        2).2.history =
      (perform_operation c3_state (.num 2) (.num 3) 0).2.history ∧
    (c3_state.history = [] → 0 < c3_state.config.max_history_size →
      (perform_operation c3_state (.num 2) (.num 3) 0).2.history =
        [⟨"Addition", 2, 3, 5, 0⟩]) :=
  C3_undo_redo_roundtrip c3_state add_op 2 3 5 0 1 2 rfl rfl
    (by norm_num [add_op])

/-- C4: for every engine state, saving the history and loading the resulting
file into a fresh engine succeeds and reproduces exactly the same ordered
sequence of calculations (operation names, operands, results and timestamps),
with the fresh engine's undo/redo stacks untouched. -/
theorem C4_save_load_roundtrip (s : CalculatorState)
    (config : CalculatorConfig) :
    load_history (freshState config) (some (save_history s)) =
      .ok { freshState config with history := s.history } := by
  by_cases h : s.history = []
  · simp [save_history, h, load_history, freshState]
  · have hne : ¬ (s.history.map Calculation.to_dict).isEmpty := by
      simpa [List.isEmpty_iff] using h
    simp [save_history, load_history, hne, parse_rows_map_to_dict]

/-- C8 counterexample: immediately after one successful computation the undo
stack has exactly one entry — fewer than 2 — yet `undo` returns `True` (and
restores the empty pre-computation history), so the claim's "fewer than 2
entries returns False" clause is false on the code pinned by `test_undo`. -/
theorem C8_counterexample :
    (perform_operation c3_state (.num 2) (.num 3) 0).2.undo_stack.length =
      1 ∧
    (undo (perform_operation c3_state (.num 2) (.num 3) 0).2 1).1 = true := by
  constructor <;> rfl

/-- C8 (amended): `undo` with an empty undo stack and `redo` with an empty
redo stack each return `False`, raise no error, and leave the engine state
completely unchanged. -/
theorem C8_empty_stacks_noop (s : CalculatorState) (ts : Nat) :
    (s.undo_stack = [] → undo s ts = (false, s)) ∧
    (s.redo_stack = [] → redo s ts = (false, s)) := by
  constructor
  · intro h; simp [undo, h]
  · intro h; simp [redo, h]

/-- C8 witness: on a fresh engine both `undo` and `redo` return `False` and
change nothing. -/
theorem C8_witness :
    undo (freshState ⟨100⟩) 0 = (false, freshState ⟨100⟩) ∧
    redo (freshState ⟨100⟩) 0 = (false, freshState ⟨100⟩) :=
  ⟨(C8_empty_stacks_noop (freshState ⟨100⟩) 0).1 rfl,
   (C8_empty_stacks_noop (freshState ⟨100⟩) 0).2 rfl⟩

/-- C9: constructing the engine attempts the history load immediately (a
successful load becomes the initial state), and every load failure is
swallowed: construction still yields the usable fresh engine with empty
history. -/
theorem C9_init_swallows_load_failure (config : CalculatorConfig)
    (file : HistoryFile) :
    (∀ s', load_history (freshState config) file = .ok s' →
        calculator_init config file = s') ∧
    (∀ e, load_history (freshState config) file = .error e →
        calculator_init config file = freshState config ∧
        (calculator_init config file).history = []) := by
  constructor
  · intro s' h; simp [calculator_init, h]
  · intro e h
    have heq : calculator_init config file = freshState config := by
      unfold calculator_init
      rw [h]
    exact ⟨heq, by rw [heq]; rfl⟩

/-- C9 witness: a history file with an unparseable row makes the load fail,
yet construction succeeds and yields the fresh engine with empty history. -/
theorem C9_witness :
    (∃ e, load_history (freshState ⟨100⟩) bad_file = .error e) ∧
    calculator_init ⟨100⟩ bad_file = freshState ⟨100⟩ ∧
    (calculator_init ⟨100⟩ bad_file).history = [] :=
  ⟨⟨.operationError ("Failed to load history: " ++ "Invalid calculation data"),
    rfl⟩,
   (C9_init_swallows_load_failure ⟨100⟩ bad_file).2 _ rfl⟩

/-- C10: for every memento, serializing with `to_dict` and parsing back with
`from_dict` succeeds and reproduces the memento exactly — in particular the
history has the same length and, position by position, the same operation
names and equal decimal operand values. -/
theorem C10_memento_roundtrip (m : CalculatorMemento) :
    CalculatorMemento.from_dict (CalculatorMemento.to_dict m) = .ok m := by
  simp [CalculatorMemento.from_dict, CalculatorMemento.to_dict,
        parse_rows_map_to_dict]

end Midterm
